import Mathlib

/-!
Verification of the line-delimited JSON-RPC 2.0 server core
(`src/jsonrpc.c`, `src/arena.c`) as a shallow embedding.

Modelling conventions:
* Bytes are `Nat` (`10` = `'\n'`, `13` = `'\r'`).
* JSON values are the inductive `JVal`; JSON numbers are modelled as `Int`
  (the C library stores doubles, but no claim depends on non-integer
  arithmetic; the only numbers the core itself writes are exact `int32`
  error codes).
* The JSON parser (parson, a third-party library outside this repository)
  is an abstract parameter `parse : List Nat → Option JVal`; likewise the
  serializer in `jsonrpc_send_value` is a parameter.  The engine never
  inspects parser internals.
* Allocation is modelled as always succeeding (the pure model has no
  out-of-memory failures); `send_raw` in the C header returns `void`, so
  a transport call cannot report failure.
* User callbacks are pure functions; their invocations are recorded in a
  trace so that claims about "callback invoked / not invoked" are statable.
-/

/-- Protocol constants, from `src/jsonrpc.c` lines 12-21. -/
def MAX_MESSAGE_BYTES : Nat := 1048576

def MAX_BUFFER_BYTES : Nat := 2097152

def JSONRPC_ARENA_BYTES : Nat := MAX_MESSAGE_BYTES * 2

def JSONRPC_ERR_PARSE : Int := -32700

def JSONRPC_ERR_INVALID_REQUEST : Int := -32600

def JSONRPC_ERR_METHOD_NOT_FOUND : Int := -32601

def JSONRPC_ERR_INVALID_PARAMS : Int := -32602

def JSONRPC_ERR_INTERNAL : Int := -32603

/-- Newline byte, the frame terminator. -/
def NLBYTE : Nat := 10

/-- Carriage-return byte, tolerated before the newline. -/
def CRBYTE : Nat := 13

/-- JSON values (parson's `JSON_Value`).  Objects are ordered key/value
lists, as parson stores them; lookup returns the first match. -/
inductive JVal where
  | null
  | boolean (b : Bool)
  | number (n : Int)
  | str (s : String)
  | arr (items : List JVal)
  | obj (fields : List (String × JVal))
  deriving Repr

/-- `json_object_get_value`: first field with the given name. -/
def objGet (fields : List (String × JVal)) (key : String) : Option JVal :=
  (fields.find? (fun f => f.1 = key)).map (fun f => f.2)

/-- `json_object_has_value`. -/
def objHasValue (fields : List (String × JVal)) (key : String) : Bool :=
  (objGet fields key).isSome

/-- `json_object_get_string`: the value for `key` if it exists and is a
string, else null. -/
def objGetString (fields : List (String × JVal)) (key : String) :
    Option String :=
  match objGet fields key with
  | some (JVal.str s) => some s
  | _ => none

/-- `json_value_get_object`: the object payload, or null for non-objects. -/
def getObject : JVal → Option (List (String × JVal))
  | JVal.obj fields => some fields
  | _ => none

/-- `json_value_get_array`. -/
def getArray : JVal → Option (List JVal)
  | JVal.arr items => some items
  | _ => none

/-- Type test used by `jsonrpc_id_is_valid` (src/jsonrpc.c 366-373): the
value exists and is a string, number, or null. -/
def jsonrpc_id_is_valid : Option JVal → Bool
  | none => false
  | some JVal.null => true
  | some (JVal.number _) => true
  | some (JVal.str _) => true
  | some _ => false

/-- `jsonrpc_params_is_valid` (src/jsonrpc.c 375-382): absent, array or
object. -/
def jsonrpc_params_is_valid : Option JVal → Bool
  | none => true
  | some (JVal.arr _) => true
  | some (JVal.obj _) => true
  | some _ => false

/-- `jsonrpc_default_message` (src/jsonrpc.c 143-158). -/
def jsonrpc_default_message (code : Int) : String :=
  if code = JSONRPC_ERR_PARSE then "Parse error"
  else if code = JSONRPC_ERR_INVALID_REQUEST then "Invalid Request"
  else if code = JSONRPC_ERR_METHOD_NOT_FOUND then "Method not found"
  else if code = JSONRPC_ERR_INVALID_PARAMS then "Invalid params"
  else if code = JSONRPC_ERR_INTERNAL then "Internal error"
  else "Server error"

/-- `jsonrpc_copy_id` (src/jsonrpc.c 252-268): null for an absent or
invalid-typed id, otherwise a deep copy (identity in the pure model). -/
def jsonrpc_copy_id : Option JVal → JVal
  | none => JVal.null
  | some v =>
    if jsonrpc_id_is_valid (some v) then v else JVal.null

/-- `jsonrpc_build_error` (src/jsonrpc.c 270-324).  Fields appear in the
order the C code sets them: `jsonrpc`, `id`, `error{code, message}`. -/
def jsonrpc_build_error (id : Option JVal) (code : Int)
    (message : Option String) : JVal :=
  JVal.obj
    [("jsonrpc", JVal.str "2.0"),
     ("id", jsonrpc_copy_id id),
     ("error", JVal.obj
        [("code", JVal.number code),
         ("message", JVal.str (message.getD (jsonrpc_default_message code)))])]

/-- `jsonrpc_build_result` (src/jsonrpc.c 326-364): `{jsonrpc, id, result}`,
taking ownership of `result`. -/
def jsonrpc_build_result (id : Option JVal) (result : JVal) : JVal :=
  JVal.obj
    [("jsonrpc", JVal.str "2.0"),
     ("id", jsonrpc_copy_id id),
     ("result", result)]

/-- `jsonrpc_response_t` (include/jsonrpc/jsonrpc.h 22-26), the descriptor
an `on_request` handler fills in.  The C core zero-initializes it before
the call; the handler returns its final contents. -/
structure RpcDescriptor where
  result : Option JVal
  error_code : Int
  error_message : Option String
  deriving Repr

/-- Trace entries recording which user callback the dispatcher invoked. -/
inductive CbCall where
  | request (method : String) (params : Option JVal)
  | notification (method : String) (params : Option JVal)
  deriving Repr

/-- User callbacks (include/jsonrpc/jsonrpc.h 28-39).  `onRequest` is the
handler as a pure function of method and params returning the C handler's
`bool` result together with the descriptor it populated;
`hasOnNotification` records whether `on_notification` is non-null. -/
structure Callbacks where
  onRequest : Option (String → Option JVal → Bool × RpcDescriptor)
  hasOnNotification : Bool

/-- The handler-outcome branch of `jsonrpc_process_object`
(src/jsonrpc.c 427-451).  Returns the response value and the number of
times the descriptor's `result` was consumed (freed directly, or moved
into the response envelope which is freed after sending). -/
def jsonrpc_dispatch_descriptor (id : Option JVal) (handled : Bool)
    (desc : RpcDescriptor) : JVal × Nat :=
  if ¬handled then
    (jsonrpc_build_error id JSONRPC_ERR_METHOD_NOT_FOUND none,
     if desc.result.isSome then 1 else 0)
  else if desc.error_code ≠ 0 then
    (jsonrpc_build_error id desc.error_code desc.error_message,
     if desc.result.isSome then 1 else 0)
  else
    match desc.result with
    | none =>
      (jsonrpc_build_error id JSONRPC_ERR_INTERNAL
         (some "Handler returned no result"), 0)
    | some r => (jsonrpc_build_result id r, 1)

/-- `jsonrpc_process_object` (src/jsonrpc.c 384-452): validate one envelope
and dispatch it.  Returns the response (absent for notifications and for
silently dropped messages) and the trace of callback invocations. -/
def jsonrpc_process_object (cbs : Callbacks) (v : JVal) :
    Option JVal × List CbCall :=
  match getObject v with
  | none =>
    (some (jsonrpc_build_error none JSONRPC_ERR_INVALID_REQUEST none), [])
  | some o =>
    match objGetString o "jsonrpc" with
    | none =>
      (some (jsonrpc_build_error none JSONRPC_ERR_INVALID_REQUEST none), [])
    | some version =>
      if version ≠ "2.0" then
        (some (jsonrpc_build_error none JSONRPC_ERR_INVALID_REQUEST none), [])
      else
        match objGetString o "method" with
        | none =>
          (some (jsonrpc_build_error none JSONRPC_ERR_INVALID_REQUEST none),
           [])
        | some method =>
          let has_id := objHasValue o "id"
          let id : Option JVal := if has_id then objGet o "id" else none
          if has_id ∧ ¬jsonrpc_id_is_valid id then
            (some (jsonrpc_build_error none JSONRPC_ERR_INVALID_REQUEST none),
             [])
          else
            let params := objGet o "params"
            if ¬jsonrpc_params_is_valid params then
              if ¬has_id then (none, [])
              else
                (some (jsonrpc_build_error id JSONRPC_ERR_INVALID_PARAMS none),
                 [])
            else if ¬has_id then
              (none,
               if cbs.hasOnNotification then
                 [CbCall.notification method params]
               else [])
            else
              match cbs.onRequest with
              | none =>
                (some (jsonrpc_build_error id JSONRPC_ERR_METHOD_NOT_FOUND
                    none), [])
              | some handler =>
                let out := handler method params
                (some (jsonrpc_dispatch_descriptor id out.1 out.2).1,
                 [CbCall.request method params])

/-- `jsonrpc_process_value` (src/jsonrpc.c 454-499): single value or batch
array. -/
def jsonrpc_process_value (cbs : Callbacks) (v : Option JVal) :
    Option JVal × List CbCall :=
  match v with
  | none =>
    (some (jsonrpc_build_error none JSONRPC_ERR_INVALID_REQUEST none), [])
  | some value =>
    match getArray value with
    | some items =>
      if items.length = 0 then
        (some (jsonrpc_build_error none JSONRPC_ERR_INVALID_REQUEST none), [])
      else
        let results := items.map (jsonrpc_process_object cbs)
        let responses := results.filterMap (fun r => r.1)
        let calls := (results.map (fun r => r.2)).flatten
        if responses.length = 0 then (none, calls)
        else (some (JVal.arr responses), calls)
    | none => jsonrpc_process_object cbs value

/-- The `id` field of a response object (reading the built envelope back). -/
def respId (r : JVal) : Option JVal :=
  (getObject r).bind (fun fields => objGet fields "id")

theorem respId_build_error (id : Option JVal) (code : Int)
    (msg : Option String) :
    respId (jsonrpc_build_error id code msg) = some (jsonrpc_copy_id id) := by
  simp [respId, jsonrpc_build_error, getObject, objGet, List.find?]

theorem respId_build_result (id : Option JVal) (r : JVal) :
    respId (jsonrpc_build_result id r) = some (jsonrpc_copy_id id) := by
  simp [respId, jsonrpc_build_result, getObject, objGet, List.find?]

theorem respId_dispatch (id : Option JVal) (handled : Bool)
    (desc : RpcDescriptor) :
    respId (jsonrpc_dispatch_descriptor id handled desc).1 =
      some (jsonrpc_copy_id id) := by
  unfold jsonrpc_dispatch_descriptor
  by_cases h : handled
  · simp [h]
    by_cases he : desc.error_code = 0
    · cases hr : desc.result <;>
        simp [he, hr, respId_build_error, respId_build_result]
    · simp [he, respId_build_error]
  · simp [h, respId_build_error]

theorem process_object_request (cbs : Callbacks) (v : JVal)
    (o : List (String × JVal)) (m : String) (i : JVal)
    (hobj : getObject v = some o)
    (hver : objGetString o "jsonrpc" = some "2.0")
    (hmeth : objGetString o "method" = some m)
    (hid : objGet o "id" = some i)
    (hvalid : jsonrpc_id_is_valid (some i) = true)
    (hparams : jsonrpc_params_is_valid (objGet o "params") = true) :
    ∃ r, (jsonrpc_process_object cbs v).1 = some r ∧ respId r = some i := by
  have hcopy : jsonrpc_copy_id (some i) = i := by
    simp [jsonrpc_copy_id, hvalid]
  simp only [jsonrpc_process_object, hobj, hver, hmeth]
  simp [objHasValue, hid, hvalid, hparams]
  cases hreq : cbs.onRequest with
  | none => exact ⟨_, rfl, by rw [respId_build_error, hcopy]⟩
  | some handler => exact ⟨_, rfl, by rw [respId_dispatch, hcopy]⟩

theorem process_object_notification (cbs : Callbacks) (v : JVal)
    (o : List (String × JVal)) (m : String)
    (hobj : getObject v = some o)
    (hver : objGetString o "jsonrpc" = some "2.0")
    (hmeth : objGetString o "method" = some m)
    (hid : objGet o "id" = none)
    (hparams : jsonrpc_params_is_valid (objGet o "params") = true) :
    (jsonrpc_process_object cbs v).1 = none := by
  simp only [jsonrpc_process_object, hobj, hver, hmeth]
  simp [objHasValue, hid, hparams]

/-- C1: for every valid JSON-RPC 2.0 request object carrying an id `i`
(`jsonrpc = "2.0"`, `method` a string, `id` of type string/number/null,
`params` absent or array/object), `jsonrpc_process_object` produces exactly
one response and its id deep-equals `i`; for every valid notification (same
shape without the `"id"` key) it produces no response. -/
theorem c1_request_id_echo_notification_silent
    (cbs : Callbacks) (v : JVal) (o : List (String × JVal)) (m : String)
    (hobj : getObject v = some o)
    (hver : objGetString o "jsonrpc" = some "2.0")
    (hmeth : objGetString o "method" = some m) :
    (∀ i, objGet o "id" = some i →
      jsonrpc_id_is_valid (some i) = true →
      jsonrpc_params_is_valid (objGet o "params") = true →
      ∃ r, (jsonrpc_process_object cbs v).1 = some r ∧ respId r = some i) ∧
    (objGet o "id" = none →
      jsonrpc_params_is_valid (objGet o "params") = true →
      (jsonrpc_process_object cbs v).1 = none) := by
  constructor
  · intro i hid hvalid hparams
    exact process_object_request cbs v o m i hobj hver hmeth hid hvalid hparams
  · intro hid hparams
    exact process_object_notification cbs v o m hobj hver hmeth hid hparams

/-- A sample request `{"jsonrpc":"2.0","method":"ping","id":1}`. -/
def pingReq : JVal :=
  JVal.obj [("jsonrpc", JVal.str "2.0"), ("method", JVal.str "ping"),
    ("id", JVal.number 1)]

/-- Sample callbacks: a handler answering `"pong"` to everything. -/
def cbsPong : Callbacks :=
  { onRequest := some (fun _ _ =>
      (true, { result := some (JVal.str "pong"), error_code := 0,
               error_message := none })),
    hasOnNotification := true }

theorem c1_witness :
    ∃ r, (jsonrpc_process_object cbsPong pingReq).1 = some r ∧
      respId r = some (JVal.number 1) :=
  (c1_request_id_echo_notification_silent cbsPong pingReq
      [("jsonrpc", JVal.str "2.0"), ("method", JVal.str "ping"),
       ("id", JVal.number 1)]
      "ping" rfl rfl rfl).1 (JVal.number 1) rfl rfl rfl

/-- C5 draft -/
theorem c5_invalid_id_and_params
    (cbs : Callbacks) (v : JVal) (o : List (String × JVal)) (m : String)
    (hobj : getObject v = some o)
    (hver : objGetString o "jsonrpc" = some "2.0")
    (hmeth : objGetString o "method" = some m) :
    (∀ i, objGet o "id" = some i → jsonrpc_id_is_valid (some i) = false →
      jsonrpc_process_object cbs v =
        (some (JVal.obj
          [("jsonrpc", JVal.str "2.0"), ("id", JVal.null),
           ("error", JVal.obj
              [("code", JVal.number (-32600)),
               ("message", JVal.str "Invalid Request")])]), [])) ∧
    (∀ i p, objGet o "id" = some i → jsonrpc_id_is_valid (some i) = true →
      objGet o "params" = some p → jsonrpc_params_is_valid (some p) = false →
      jsonrpc_process_object cbs v =
        (some (JVal.obj
          [("jsonrpc", JVal.str "2.0"), ("id", i),
           ("error", JVal.obj
              [("code", JVal.number (-32602)),
               ("message", JVal.str "Invalid params")])]), [])) ∧
    (∀ p, objGet o "id" = none →
      objGet o "params" = some p → jsonrpc_params_is_valid (some p) = false →
      jsonrpc_process_object cbs v = (none, [])) := by
  refine ⟨?_, ?_, ?_⟩
  · intro i hid hinvalid
    simp only [jsonrpc_process_object, hobj, hver, hmeth]
    simp [objHasValue, hid, hinvalid]
    rfl
  · intro i p hid hvalid hp hpinv
    simp only [jsonrpc_process_object, hobj, hver, hmeth]
    simp [objHasValue, hid, hvalid, hp, hpinv]
    simp [jsonrpc_build_error, jsonrpc_copy_id, hvalid,
      jsonrpc_default_message, JSONRPC_ERR_INVALID_PARAMS,
      JSONRPC_ERR_PARSE, JSONRPC_ERR_INVALID_REQUEST,
      JSONRPC_ERR_METHOD_NOT_FOUND]
  · intro p hid hp hpinv
    simp only [jsonrpc_process_object, hobj, hver, hmeth]
    simp [objHasValue, hid, hp, hpinv]

/-- C6 draft -/
theorem c6_descriptor_ownership
    (cbs : Callbacks) (v : JVal) (o : List (String × JVal)) (m : String)
    (i : JVal) (handler : String → Option JVal → Bool × RpcDescriptor)
    (handled : Bool) (desc : RpcDescriptor)
    (hobj : getObject v = some o)
    (hver : objGetString o "jsonrpc" = some "2.0")
    (hmeth : objGetString o "method" = some m)
    (hid : objGet o "id" = some i)
    (hvalid : jsonrpc_id_is_valid (some i) = true)
    (hparams : jsonrpc_params_is_valid (objGet o "params") = true)
    (hreq : cbs.onRequest = some handler)
    (hout : handler m (objGet o "params") = (handled, desc)) :
    (jsonrpc_process_object cbs v =
      (some (jsonrpc_dispatch_descriptor (some i) handled desc).1,
       [CbCall.request m (objGet o "params")])) ∧
    (handled = false →
      (jsonrpc_dispatch_descriptor (some i) handled desc).1 =
        JVal.obj [("jsonrpc", JVal.str "2.0"), ("id", i),
          ("error", JVal.obj [("code", JVal.number (-32601)),
            ("message", JVal.str "Method not found")])]) ∧
    (handled = true → desc.error_code ≠ 0 →
      (jsonrpc_dispatch_descriptor (some i) handled desc).1 =
        JVal.obj [("jsonrpc", JVal.str "2.0"), ("id", i),
          ("error", JVal.obj [("code", JVal.number desc.error_code),
            ("message", JVal.str (desc.error_message.getD
               (jsonrpc_default_message desc.error_code)))])]) ∧
    (handled = true → desc.error_code = 0 → desc.result = none →
      (jsonrpc_dispatch_descriptor (some i) handled desc).1 =
        JVal.obj [("jsonrpc", JVal.str "2.0"), ("id", i),
          ("error", JVal.obj [("code", JVal.number (-32603)),
            ("message", JVal.str "Handler returned no result")])]) ∧
    (∀ r, handled = true → desc.error_code = 0 → desc.result = some r →
      (jsonrpc_dispatch_descriptor (some i) handled desc).1 =
        JVal.obj [("jsonrpc", JVal.str "2.0"), ("id", i), ("result", r)]) ∧
    (desc.result.isSome = true →
      (jsonrpc_dispatch_descriptor (some i) handled desc).2 = 1) ∧
    (desc.result = none →
      (jsonrpc_dispatch_descriptor (some i) handled desc).2 = 0) := by
  have hcopy : jsonrpc_copy_id (some i) = i := by
    simp [jsonrpc_copy_id, hvalid]
  refine ⟨?_, ?_, ?_, ?_, ?_, ?_, ?_⟩
  · simp only [jsonrpc_process_object, hobj, hver, hmeth]
    simp [objHasValue, hid, hvalid, hparams, hreq, hout]
  · intro hh
    simp [jsonrpc_dispatch_descriptor, hh, jsonrpc_build_error, hcopy]
    exact ⟨rfl, rfl⟩
  · intro hh he
    simp [jsonrpc_dispatch_descriptor, hh, he, jsonrpc_build_error, hcopy]
  · intro hh he hr
    simp [jsonrpc_dispatch_descriptor, hh, he, hr, jsonrpc_build_error, hcopy]
    rfl
  · intro r hh he hr
    simp [jsonrpc_dispatch_descriptor, hh, he, hr, jsonrpc_build_result, hcopy]
  · intro hr
    unfold jsonrpc_dispatch_descriptor
    by_cases hh : handled
    · by_cases he : desc.error_code = 0
      · cases hres : desc.result with
        | none => rw [hres] at hr; simp at hr
        | some r => simp [hh, he, hres]
      · simp [hh, he, hr]
    · simp [hh, hr]
  · intro hr
    unfold jsonrpc_dispatch_descriptor
    by_cases hh : handled
    · by_cases he : desc.error_code = 0
      · simp [hh, he, hr]
      · simp [hh, he, hr]
    · simp [hh, hr]

/-- `{"jsonrpc":"2.0","method":"m","id":true}`: boolean ids are invalid. -/
def badIdReq : JVal :=
  JVal.obj [("jsonrpc", JVal.str "2.0"), ("method", JVal.str "m"),
    ("id", JVal.boolean true)]

theorem c5_witness :
    jsonrpc_process_object cbsPong badIdReq =
      (some (JVal.obj
        [("jsonrpc", JVal.str "2.0"), ("id", JVal.null),
         ("error", JVal.obj
            [("code", JVal.number (-32600)),
             ("message", JVal.str "Invalid Request")])]), []) :=
  (c5_invalid_id_and_params cbsPong badIdReq
      [("jsonrpc", JVal.str "2.0"), ("method", JVal.str "m"),
       ("id", JVal.boolean true)]
      "m" rfl rfl rfl).1 (JVal.boolean true) rfl rfl

/-- A handler that declines every request while leaving a result in the
descriptor, exercising the "free on not-handled" path. -/
def cbsNotHandled : Callbacks :=
  { onRequest := some (fun _ _ =>
      (false, { result := some (JVal.str "x"), error_code := 0,
                error_message := none })),
    hasOnNotification := false }

def descNotHandled : RpcDescriptor :=
  { result := some (JVal.str "x"), error_code := 0, error_message := none }

theorem c6_witness :
    (jsonrpc_process_object cbsNotHandled pingReq =
      (some (jsonrpc_dispatch_descriptor (some (JVal.number 1)) false
          descNotHandled).1,
       [CbCall.request "ping" none])) ∧
    (jsonrpc_dispatch_descriptor (some (JVal.number 1)) false
        descNotHandled).2 = 1 :=
  ⟨(c6_descriptor_ownership cbsNotHandled pingReq
      [("jsonrpc", JVal.str "2.0"), ("method", JVal.str "ping"),
       ("id", JVal.number 1)]
      "ping" (JVal.number 1)
      (fun _ _ => (false, descNotHandled)) false descNotHandled
      rfl rfl rfl rfl rfl rfl rfl rfl).1,
   (c6_descriptor_ownership cbsNotHandled pingReq
      [("jsonrpc", JVal.str "2.0"), ("method", JVal.str "ping"),
       ("id", JVal.number 1)]
      "ping" (JVal.number 1)
      (fun _ _ => (false, descNotHandled)) false descNotHandled
      rfl rfl rfl rfl rfl rfl rfl rfl).2.2.2.2.2.1 rfl⟩

/-- The checks of `jsonrpc_process_object` that make a single object a
well-formed request (id present with a valid type, params well-typed). -/
def is_valid_request (v : JVal) : Bool :=
  match getObject v with
  | none => false
  | some o =>
    decide (objGetString o "jsonrpc" = some "2.0") &&
    (objGetString o "method").isSome &&
    jsonrpc_id_is_valid (objGet o "id") &&
    jsonrpc_params_is_valid (objGet o "params")

/-- The same checks for a well-formed notification (no `"id"` key). -/
def is_valid_notification (v : JVal) : Bool :=
  match getObject v with
  | none => false
  | some o =>
    decide (objGetString o "jsonrpc" = some "2.0") &&
    (objGetString o "method").isSome &&
    (objGet o "id").isNone &&
    jsonrpc_params_is_valid (objGet o "params")

theorem process_object_isSome_of_valid_request (cbs : Callbacks) (v : JVal)
    (h : is_valid_request v = true) :
    ((jsonrpc_process_object cbs v).1).isSome = true := by
  unfold is_valid_request at h
  cases hobj : getObject v with
  | none => rw [hobj] at h; simp at h
  | some o =>
    rw [hobj] at h
    simp only [Bool.and_eq_true, decide_eq_true_eq] at h
    obtain ⟨⟨⟨hver, hmeth⟩, hid⟩, hparams⟩ := h
    cases hm : objGetString o "method" with
    | none => rw [hm] at hmeth; simp at hmeth
    | some m =>
      cases hi : objGet o "id" with
      | none => rw [hi] at hid; simp [jsonrpc_id_is_valid] at hid
      | some i =>
        rw [hi] at hid
        obtain ⟨r, hr, -⟩ :=
          process_object_request cbs v o m i hobj hver hm hi hid hparams
        simp [hr]

theorem process_object_none_of_valid_notification (cbs : Callbacks)
    (v : JVal) (h : is_valid_notification v = true) :
    (jsonrpc_process_object cbs v).1 = none := by
  unfold is_valid_notification at h
  cases hobj : getObject v with
  | none => rw [hobj] at h; simp at h
  | some o =>
    rw [hobj] at h
    simp only [Bool.and_eq_true, decide_eq_true_eq] at h
    obtain ⟨⟨⟨hver, hmeth⟩, hid⟩, hparams⟩ := h
    cases hm : objGetString o "method" with
    | none => rw [hm] at hmeth; simp at hmeth
    | some m =>
      rw [Option.isNone_iff_eq_none] at hid
      exact process_object_notification cbs v o m hobj hver hm hid hparams

theorem batch_responses_count (cbs : Callbacks) (items : List JVal)
    (h : ∀ x ∈ items, is_valid_request x = true ∨
      is_valid_notification x = true) :
    (items.filterMap (fun x => (jsonrpc_process_object cbs x).1)).length =
      (items.filter is_valid_request).length ∧
    items.filterMap (fun x => (jsonrpc_process_object cbs x).1) =
      (items.filter is_valid_request).filterMap
        (fun x => (jsonrpc_process_object cbs x).1) := by
  induction items with
  | nil => simp
  | cons x rest ih =>
    have hx := h x (List.mem_cons_self x rest)
    have hrest := ih (fun y hy => h y (List.mem_cons_of_mem x hy))
    cases hx with
    | inl hreq =>
      have hs := process_object_isSome_of_valid_request cbs x hreq
      cases hr : (jsonrpc_process_object cbs x).1 with
      | none => rw [hr] at hs; simp at hs
      | some r =>
        simp [List.filterMap_cons, List.filter_cons, hr, hreq, hrest.1,
          hrest.2]
        exact fun a _ hra => process_object_isSome_of_valid_request cbs a hra
    | inr hnotif =>
      have hn := process_object_none_of_valid_notification cbs x hnotif
      by_cases hreq : is_valid_request x = true
      · -- a value cannot be both: request needs a valid id, so id present
        exfalso
        have hs := process_object_isSome_of_valid_request cbs x hreq
        rw [hn] at hs
        simp at hs
      · simp [List.filterMap_cons, List.filter_cons, hn, hreq, hrest.1,
          hrest.2]
        exact fun a _ hra => process_object_isSome_of_valid_request cbs a hra

/-- C2: an empty batch array gets a single Invalid Request (-32600) reply
with id null; a batch of n valid elements of which k are requests yields
exactly k response objects, in the order their requests appear (the
responses are the in-order response list of the requests alone); when
k = 0 no response at all is produced. -/
theorem c2_batch_responses (cbs : Callbacks) (items : List JVal)
    (hval : ∀ x ∈ items, is_valid_request x = true ∨
      is_valid_notification x = true) :
    (jsonrpc_process_value cbs (some (JVal.arr [])) =
      (some (JVal.obj
        [("jsonrpc", JVal.str "2.0"), ("id", JVal.null),
         ("error", JVal.obj
            [("code", JVal.number (-32600)),
             ("message", JVal.str "Invalid Request")])]), [])) ∧
    ((items.filterMap (fun x => (jsonrpc_process_object cbs x).1)).length =
      (items.filter is_valid_request).length) ∧
    (items.filterMap (fun x => (jsonrpc_process_object cbs x).1) =
      (items.filter is_valid_request).filterMap
        (fun x => (jsonrpc_process_object cbs x).1)) ∧
    (items ≠ [] → (items.filter is_valid_request).length = 0 →
      (jsonrpc_process_value cbs (some (JVal.arr items))).1 = none) ∧
    (items ≠ [] → (items.filter is_valid_request).length ≠ 0 →
      (jsonrpc_process_value cbs (some (JVal.arr items))).1 =
        some (JVal.arr
          (items.filterMap (fun x => (jsonrpc_process_object cbs x).1)))) := by
  obtain ⟨hlen, horder⟩ := batch_responses_count cbs items hval
  refine ⟨by rfl, hlen, horder, ?_, ?_⟩
  · intro hne hk
    simp only [jsonrpc_process_value, getArray]
    rw [if_neg (by simpa using hne)]
    simp only [List.filterMap_map, Function.comp_def] at *
    rw [if_pos (by rw [hlen, hk])]
  · intro hne hk
    simp only [jsonrpc_process_value, getArray]
    rw [if_neg (by simpa using hne)]
    simp only [List.filterMap_map, Function.comp_def] at *
    rw [if_neg (by rw [hlen]; exact hk)]

/-- `{"jsonrpc":"2.0","method":"notify"}`: a valid notification. -/
def notifReq : JVal :=
  JVal.obj [("jsonrpc", JVal.str "2.0"), ("method", JVal.str "notify")]

theorem c2_witness :
    (jsonrpc_process_value cbsPong
        (some (JVal.arr [pingReq, notifReq]))).1 =
      some (JVal.arr
        ([pingReq, notifReq].filterMap
          (fun x => (jsonrpc_process_object cbsPong x).1))) :=
  (c2_batch_responses cbsPong [pingReq, notifReq]
      (by decide)).2.2.2.2 (List.cons_ne_nil _ _) (by decide)

/-- `jsonrpc_send_value` (src/jsonrpc.c 225-250), parametrized over the
JSON serializer (`json_serialize_to_string`, which returns null on
failure — an allocation failure inside the library).  `hasSendRaw` records
whether the transport's `send_raw` pointer is non-null.  Returns the list
of byte ranges handed to `send_raw` and the function's boolean result.
`send_raw` itself returns `void` in the C header, so a transport call
cannot report failure; payload allocation is modelled as succeeding. -/
def jsonrpc_send_value (ser : JVal → Option String) (hasSendRaw : Bool)
    (value : Option JVal) : List (List Char) × Bool :=
  match value with
  | none => ([], false)
  | some v =>
    if ¬hasSendRaw then ([], false)
    else
      match ser v with
      | none => ([], false)
      | some s => ([s.data ++ ['\n']], true)

/-- C7: sending a response serializes it, appends exactly one newline
byte, hands `send_raw` a single `len+1`-byte range, and returns success
iff serialization (the only fallible step: the transport call cannot fail
and allocation is modelled as succeeding) succeeded. -/
theorem c7_send_value_framing (ser : JVal → Option String) :
    (∀ v s, ser v = some s →
      jsonrpc_send_value ser true (some v) = ([s.data ++ ['\n']], true) ∧
      (s.data ++ ['\n']).length = s.length + 1) ∧
    (∀ v, ser v = none →
      jsonrpc_send_value ser true (some v) = ([], false)) ∧
    (jsonrpc_send_value ser true none = ([], false)) ∧
    (∀ v, jsonrpc_send_value ser false (some v) = ([], false)) ∧
    (∀ v, (jsonrpc_send_value ser true (some v)).2 = (ser v).isSome) := by
  refine ⟨?_, ?_, rfl, ?_, ?_⟩
  · intro v s hs
    refine ⟨?_, ?_⟩
    · simp [jsonrpc_send_value, hs]
    · rw [List.length_append]; rfl
  · intro v hs
    simp [jsonrpc_send_value, hs]
  · intro v
    simp [jsonrpc_send_value]
  · intro v
    cases hs : ser v <;> simp [jsonrpc_send_value, hs]

/-- A serializer stub used by witnesses. -/
def serStub : JVal → Option String := fun _ => some "null"

theorem c7_witness :
    jsonrpc_send_value serStub true (some JVal.null) =
      (["null".data ++ ['\n']], true) ∧
    ("null".data ++ ['\n']).length = "null".length + 1 :=
  (c7_send_value_framing serStub).1 JVal.null "null" rfl

/-- An arena (src/arena.c; struct from the arena header): a region of
`size` bytes at address `base`, a bump `index`, and the region contents
`mem` (`calloc` zeroes them at creation; the arena itself never writes).
Only successfully created arenas are modelled, so `region != NULL`. -/
structure Arena where
  base : Nat
  size : Nat
  index : Nat
  mem : List Nat
  deriving Repr, DecidableEq

/-- `arena_create` (src/arena.c 239-261): `size = 0` yields no arena;
otherwise a zeroed region (the `base` address is wherever `calloc` put the
region; heap allocation is modelled as succeeding). -/
def arena_create (base : Nat) (size : Nat) : Option Arena :=
  if size = 0 then none
  else some { base := base, size := size, index := 0,
              mem := List.replicate size 0 }

/-- `arena_alloc_aligned` (src/arena.c 267-303).  Returns the absolute
address of the block and the advanced arena, or nothing.  Subtractions
are C `size_t` subtractions, which never wrap here because the code
checks `index > size` first and the padding bound before adding. -/
def arena_alloc_aligned (ar : Arena) (size alignment : Nat) :
    Option (Nat × Arena) :=
  if size = 0 then none
  else if ar.size < ar.index then none
  else
    let padded : Option Nat :=
      if alignment ≠ 0 then
        let mis := (ar.base + ar.index) % alignment
        if mis ≠ 0 then
          if ar.size - ar.index < alignment - mis then none
          else some (ar.index + (alignment - mis))
        else some ar.index
      else some ar.index
    match padded with
    | none => none
    | some idx2 =>
      if ar.size - idx2 < size then none
      else some (ar.base + idx2, { ar with index := idx2 + size })

/-- `ARENA_DEFAULT_ALIGNMENT = alignof(max_align_t)` (src/jsonrpc.c 6),
16 on the x86-64 target. -/
def ARENA_DEFAULT_ALIGNMENT : Nat := 16

/-- `arena_alloc` (src/arena.c 263-265). -/
def arena_alloc (ar : Arena) (size : Nat) : Option (Nat × Arena) :=
  arena_alloc_aligned ar size ARENA_DEFAULT_ALIGNMENT

/-- `arena_clear` (src/arena.c 326-336): resets the index only; the
region contents are left as they are. -/
def arena_clear (ar : Arena) : Arena :=
  { ar with index := 0 }

/-- A caller store through a pointer previously returned by the arena
(e.g. the JSON library writing into an allocated node).  Not an arena
operation: it models the use the allocator's clients make of returned
memory, which `arena_clear` does not erase. -/
def arena_store (ar : Arena) (p v : Nat) : Arena :=
  { ar with mem := ar.mem.set (p - ar.base) v }

/-- The `n` region bytes starting at absolute address `p`. -/
def arena_read (ar : Arena) (p n : Nat) : List Nat :=
  (ar.mem.drop (p - ar.base)).take n

/-- The alignment padding `arena_alloc_aligned` inserts at the current
index (0 when already aligned). -/
def arena_align_pad (ar : Arena) (alignment : Nat) : Nat :=
  if (ar.base + ar.index) % alignment = 0 then 0
  else alignment - (ar.base + ar.index) % alignment

theorem arena_align_pad_of_aligned (ar : Arena) (a : Nat)
    (hmis : (ar.base + ar.index) % a = 0) : arena_align_pad ar a = 0 := by
  simp [arena_align_pad, hmis]

theorem arena_align_pad_of_misaligned (ar : Arena) (a : Nat)
    (hmis : (ar.base + ar.index) % a ≠ 0) :
    arena_align_pad ar a = a - (ar.base + ar.index) % a := by
  simp [arena_align_pad, hmis]

theorem arena_align_pad_mod (ar : Arena) (a : Nat) (ha : 0 < a) :
    (ar.base + ar.index + arena_align_pad ar a) % a = 0 := by
  by_cases hmis : (ar.base + ar.index) % a = 0
  · rw [arena_align_pad_of_aligned ar a hmis, Nat.add_zero]
    exact hmis
  · rw [arena_align_pad_of_misaligned ar a hmis]
    have hdm := Nat.div_add_mod (ar.base + ar.index) a
    have hlt : (ar.base + ar.index) % a < a := Nat.mod_lt _ ha
    have he : ar.base + ar.index + (a - (ar.base + ar.index) % a) =
        a * ((ar.base + ar.index) / a) + a := by omega
    rw [he, show a * ((ar.base + ar.index) / a) + a =
      a * ((ar.base + ar.index) / a + 1) by ring, Nat.mul_mod_right]

theorem arena_alloc_aligned_eq (ar : Arena) (n a : Nat)
    (hinv : ar.index ≤ ar.size) (ha : 0 < a) :
    arena_alloc_aligned ar n a =
      if n = 0 then none
      else if ar.size - ar.index < arena_align_pad ar a then none
      else if ar.size - (ar.index + arena_align_pad ar a) < n then none
      else some (ar.base + ar.index + arena_align_pad ar a,
                 { ar with index := ar.index + arena_align_pad ar a + n }) := by
  have hnotlt : ¬ ar.size < ar.index := Nat.not_lt.mpr hinv
  have hane : a ≠ 0 := Nat.pos_iff_ne_zero.mp ha
  by_cases hn0 : n = 0
  · simp [arena_alloc_aligned, hn0]
  rw [if_neg hn0]
  unfold arena_alloc_aligned
  rw [if_neg hn0, if_neg hnotlt]
  simp only [hane, ne_eq, not_false_eq_true, if_true]
  by_cases hmis : (ar.base + ar.index) % a = 0
  · rw [arena_align_pad_of_aligned ar a hmis]
    simp only [hmis, not_true_eq_false, if_false]
    rw [if_neg (by omega : ¬ ar.size - ar.index < 0), Nat.add_zero,
      Nat.add_zero]
  · rw [arena_align_pad_of_misaligned ar a hmis]
    simp only [hmis, not_false_eq_true, if_true]
    by_cases hpad : ar.size - ar.index < a - (ar.base + ar.index) % a
    · simp [hpad]
    · simp only [hpad, if_false]
      by_cases hroom :
          ar.size - (ar.index + (a - (ar.base + ar.index) % a)) < n
      · simp [hroom]
      · simp only [hroom, if_false, Option.some.injEq, Prod.mk.injEq]
        constructor
        · omega
        · simp [Nat.add_assoc]

/-- C8 (amended): for every arena state with `index ≤ size` and a nonzero
alignment, `arena_alloc_aligned` fails on `n = 0`; for `n > 0` it fails
exactly when the padding or the size overflows the remaining capacity; on
success the returned block is aligned to `a`, lies inside the region, and
its bytes are zero whenever the region bytes are still in their initial
calloc-zeroed state — in particular on a freshly created arena.  (After
`arena_clear` and reuse the bytes may retain earlier caller writes:
`arena_clear` resets only the index; see the counterexample.) -/
theorem c8_arena_alloc_contract (ar : Arena) (n a : Nat)
    (hinv : ar.index ≤ ar.size) (ha : 0 < a) :
    (arena_alloc_aligned ar 0 a = none) ∧
    (0 < n →
      (arena_alloc_aligned ar n a = none ↔
        (ar.size - ar.index < arena_align_pad ar a ∨
         ar.size - (ar.index + arena_align_pad ar a) < n))) ∧
    (∀ p ar2, arena_alloc_aligned ar n a = some (p, ar2) →
      p % a = 0 ∧ ar.base ≤ p ∧ p + n ≤ ar.base + ar.size ∧
      ar2.base = ar.base ∧ ar2.size = ar.size ∧ ar2.index ≤ ar2.size ∧
      ar2.mem = ar.mem ∧
      (ar.mem = List.replicate ar.size 0 →
        arena_read ar2 p n = List.replicate n 0)) := by
  have heq := arena_alloc_aligned_eq ar n a hinv ha
  refine ⟨by simp [arena_alloc_aligned], ?_, ?_⟩
  · intro hn
    rw [heq, if_neg (Nat.pos_iff_ne_zero.mp hn)]
    by_cases hpad : ar.size - ar.index < arena_align_pad ar a
    · simp [hpad]
    · by_cases hroom : ar.size - (ar.index + arena_align_pad ar a) < n
      · simp [hpad, hroom]
      · simp [hpad, hroom]
  · intro p ar2 hsucc
    rw [heq] at hsucc
    by_cases hn0 : n = 0
    · rw [if_pos hn0] at hsucc; exact absurd hsucc (by simp)
    rw [if_neg hn0] at hsucc
    by_cases hpad : ar.size - ar.index < arena_align_pad ar a
    · rw [if_pos hpad] at hsucc; exact absurd hsucc (by simp)
    rw [if_neg hpad] at hsucc
    by_cases hroom : ar.size - (ar.index + arena_align_pad ar a) < n
    · rw [if_pos hroom] at hsucc; exact absurd hsucc (by simp)
    rw [if_neg hroom] at hsucc
    rw [Option.some.injEq, Prod.mk.injEq] at hsucc
    obtain ⟨hp, har2⟩ := hsucc
    subst hp
    subst har2
    refine ⟨arena_align_pad_mod ar a ha, by omega, by omega, rfl, rfl,
      by simp; omega, rfl, ?_⟩
    intro hmem
    simp only [arena_read, hmem]
    have hdrop : (ar.base + ar.index + arena_align_pad ar a) - ar.base =
        ar.index + arena_align_pad ar a := by omega
    rw [hdrop, List.drop_replicate, List.take_replicate]
    congr 1
    omega

/-- A freshly created 32-byte arena at address 0. -/
def arC8 : Arena :=
  { base := 0, size := 32, index := 0, mem := List.replicate 32 0 }

/-- C8 counterexample: the claim's "zero-initialized bytes" fails for
states reached after `clear()`.  Allocate a byte, store 42 through the
returned pointer, `arena_clear`, allocate again: the same address is
returned and its byte reads 42, not 0 — `arena_clear` resets only the
index and never rezeroes the region. -/
theorem c8_counterexample :
    arena_create 0 32 = some arC8 ∧
    arena_alloc_aligned arC8 1 1 =
      some (0, { base := 0, size := 32, index := 1,
                 mem := List.replicate 32 0 }) ∧
    arena_alloc_aligned
        (arena_clear
          (arena_store
            { base := 0, size := 32, index := 1,
              mem := List.replicate 32 0 } 0 42)) 1 1 =
      some (0, { base := 0, size := 32, index := 1,
                 mem := (List.replicate 32 0).set 0 42 }) ∧
    arena_read
        { base := 0, size := 32, index := 1,
          mem := (List.replicate 32 0).set 0 42 } 0 1 = [42] ∧
    ([42] : List Nat) ≠ List.replicate 1 0 := by
  refine ⟨by decide, by decide, by decide, by decide, by decide⟩

def arC8after : Arena :=
  { base := 0, size := 32, index := 9, mem := List.replicate 32 0 }

theorem c8_witness :
    (0 : Nat) % 4 = 0 ∧ arC8.base ≤ 0 ∧ 0 + 9 ≤ arC8.base + arC8.size ∧
    arC8after.base = arC8.base ∧ arC8after.size = arC8.size ∧
    arC8after.index ≤ arC8after.size ∧ arC8after.mem = arC8.mem ∧
    (arC8.mem = List.replicate arC8.size 0 →
      arena_read arC8after 0 9 = List.replicate 9 0) :=
  (c8_arena_alloc_contract arC8 9 4 (by decide) (by decide)).2.2 0 arC8after
    (by decide)

/-- Allocation-header constants (src/jsonrpc.c 34-40): the magic tag
"JRPC", the two origins, and the header size — `sizeof` of the two-word
header (8) rounded up to `alignof(max_align_t)` (16 on x86-64). -/
def JSONRPC_ALLOC_TAG : Nat := 0x4A525043

def JSONRPC_ALLOC_ORIGIN_ARENA : Nat := 1

def JSONRPC_ALLOC_ORIGIN_HEAP : Nat := 2

def JSONRPC_ALLOC_HEADER_BYTES : Nat := 16

/-- `SIZE_MAX` for the 64-bit target. -/
def SIZE_MAX64 : Nat := 2 ^ 64 - 1

/-- The header the shim writes in front of every block it returns. -/
structure ShimBlock where
  tag : Nat
  origin : Nat
  deriving Repr, DecidableEq

/-- `jsonrpc_arena_malloc` (src/jsonrpc.c 59-94): try the bound arena
first, fall back to the system heap (`calloc`, modelled as succeeding);
tag the block with its origin.  Returns the block header and the arena
after the attempt (`none` result models the C function returning null). -/
def jsonrpc_arena_malloc (cur : Option Arena) (size : Nat) :
    Option (ShimBlock × Option Arena) :=
  if size = 0 then none
  else if SIZE_MAX64 - JSONRPC_ALLOC_HEADER_BYTES < size then none
  else
    let total := size + JSONRPC_ALLOC_HEADER_BYTES
    match cur with
    | some ar =>
      match arena_alloc ar total with
      | some (_, ar2) =>
        some ({ tag := JSONRPC_ALLOC_TAG,
                origin := JSONRPC_ALLOC_ORIGIN_ARENA }, some ar2)
      | none =>
        some ({ tag := JSONRPC_ALLOC_TAG,
                origin := JSONRPC_ALLOC_ORIGIN_HEAP }, some ar)
    | none =>
      some ({ tag := JSONRPC_ALLOC_TAG,
              origin := JSONRPC_ALLOC_ORIGIN_HEAP }, none)

/-- What `jsonrpc_arena_free` does with the raw block. -/
inductive FreeAction where
  | noop
  | systemFree
  deriving Repr, DecidableEq

/-- `jsonrpc_arena_free` (src/jsonrpc.c 96-110): null pointer → no-op;
tag mismatch → no-op; heap origin → system `free`; anything else
(including arena origin) → no-op. -/
def jsonrpc_arena_free (blk : Option ShimBlock) : FreeAction :=
  match blk with
  | none => FreeAction.noop
  | some b =>
    if b.tag ≠ JSONRPC_ALLOC_TAG then FreeAction.noop
    else if b.origin = JSONRPC_ALLOC_ORIGIN_HEAP then FreeAction.systemFree
    else FreeAction.noop

/-- C9: the shim's `free` is a no-op on a tag mismatch and on
arena-origin blocks, and releases to the system allocator only
heap-origin blocks; consequently no block the shim placed in an arena is
ever passed to the system free. -/
theorem c9_shim_free_routing :
    (∀ b : ShimBlock, b.tag ≠ JSONRPC_ALLOC_TAG →
      jsonrpc_arena_free (some b) = FreeAction.noop) ∧
    (∀ b : ShimBlock, b.origin = JSONRPC_ALLOC_ORIGIN_ARENA →
      jsonrpc_arena_free (some b) = FreeAction.noop) ∧
    (∀ b : ShimBlock, b.tag = JSONRPC_ALLOC_TAG →
      b.origin = JSONRPC_ALLOC_ORIGIN_HEAP →
      jsonrpc_arena_free (some b) = FreeAction.systemFree) ∧
    (jsonrpc_arena_free none = FreeAction.noop) ∧
    (∀ cur size b cur2, jsonrpc_arena_malloc cur size = some (b, cur2) →
      b.origin = JSONRPC_ALLOC_ORIGIN_ARENA →
      jsonrpc_arena_free (some b) = FreeAction.noop) := by
  refine ⟨?_, ?_, ?_, rfl, ?_⟩
  · intro b hb
    simp [jsonrpc_arena_free, hb]
  · intro b hb
    by_cases ht : b.tag = JSONRPC_ALLOC_TAG
    · simp [jsonrpc_arena_free, ht, hb, JSONRPC_ALLOC_ORIGIN_ARENA,
        JSONRPC_ALLOC_ORIGIN_HEAP]
    · simp [jsonrpc_arena_free, ht]
  · intro b ht ho
    simp [jsonrpc_arena_free, ht, ho]
  · intro cur size b cur2 hmalloc hb
    by_cases ht : b.tag = JSONRPC_ALLOC_TAG
    · simp [jsonrpc_arena_free, ht, hb, JSONRPC_ALLOC_ORIGIN_ARENA,
        JSONRPC_ALLOC_ORIGIN_HEAP]
    · simp [jsonrpc_arena_free, ht]

theorem c9_witness :
    jsonrpc_arena_free
        (some { tag := JSONRPC_ALLOC_TAG,
                origin := JSONRPC_ALLOC_ORIGIN_ARENA }) = FreeAction.noop :=
  (c9_shim_free_routing).2.1
    { tag := JSONRPC_ALLOC_TAG, origin := JSONRPC_ALLOC_ORIGIN_ARENA } rfl

/-- Connection state as far as `jsonrpc_conn_new` establishes it
(src/jsonrpc.c 50-57, 501-525). -/
structure Conn where
  closed : Bool
  buffer : List Nat
  arena : Option Arena
  deriving Repr

/-- Lifecycle callbacks a connection can fire. -/
inductive LifeEvent where
  | onOpen
  deriving Repr, DecidableEq

/-- `jsonrpc_conn_new` (src/jsonrpc.c 501-525), given the outcome of its
`arena_create(JSONRPC_ARENA_BYTES)` call (which returns null when the
region allocation fails at runtime) and whether an `on_open` callback is
registered.  The connection's own `calloc` is modelled as succeeding —
the only failure path the C function has.  `on_open` fires inside the
call, before it returns. -/
def jsonrpc_conn_new (arenaResult : Option Arena) (hasOnOpen : Bool) :
    Conn × List LifeEvent :=
  ({ closed := false, buffer := [], arena := arenaResult },
   if hasOnOpen then [LifeEvent.onOpen] else [])

/-- The saved state returned by `jsonrpc_arena_scope_begin`
(src/jsonrpc.c 42-45). -/
structure ArenaScope where
  prev : Option Arena
  changed : Bool
  deriving Repr, DecidableEq

/-- `jsonrpc_arena_scope_begin` (src/jsonrpc.c 121-130): given the
current global binding `g`, returns the new binding and the scope record.
(The C code compares arena pointers; here two arenas compare equal when
structurally equal, which coincides with pointer comparison in the cases
the claims exercise — a null arena in particular.) -/
def jsonrpc_arena_scope_begin (g : Option Arena) (arena : Option Arena) :
    Option Arena × ArenaScope :=
  if arena = none ∨ g = arena then (g, { prev := g, changed := false })
  else (arena, { prev := g, changed := true })

/-- `jsonrpc_arena_scope_end` (src/jsonrpc.c 132-141): given the global
binding `g` at scope end, returns the new binding and the arena after the
call (cleared when the scope had changed the binding). -/
def jsonrpc_arena_scope_end (arena : Option Arena) (g : Option Arena)
    (scope : ArenaScope) : Option Arena × Option Arena :=
  if ¬scope.changed then (g, arena)
  else (scope.prev, arena.map arena_clear)

/-- C10: `jsonrpc_conn_new` does not fail when `arena_create` fails — the
connection is returned with a null arena and `on_open` still fires inside
the call; a message scope begun on a null arena leaves the global binding
unchanged; and every shim allocation with no bound arena falls back to
the system heap. -/
theorem c10_conn_new_survives_null_arena :
    (jsonrpc_conn_new none true =
      ({ closed := false, buffer := [], arena := none },
       [LifeEvent.onOpen])) ∧
    (∀ g, jsonrpc_arena_scope_begin g none =
      (g, { prev := g, changed := false })) ∧
    (∀ size, size ≠ 0 → size ≤ SIZE_MAX64 - JSONRPC_ALLOC_HEADER_BYTES →
      jsonrpc_arena_malloc none size =
        some ({ tag := JSONRPC_ALLOC_TAG,
                origin := JSONRPC_ALLOC_ORIGIN_HEAP }, none)) := by
  refine ⟨rfl, ?_, ?_⟩
  · intro g
    simp [jsonrpc_arena_scope_begin]
  · intro size h0 hmax
    simp [jsonrpc_arena_malloc, h0, Nat.not_lt.mpr hmax]

theorem c10_witness :
    jsonrpc_arena_malloc none 8 =
      some ({ tag := JSONRPC_ALLOC_TAG,
              origin := JSONRPC_ALLOC_ORIGIN_HEAP }, none) :=
  c10_conn_new_survives_null_arena.2.2 8 (by decide) (by decide)

/-- `memchr(buf, '\n', len)`: index of the first newline byte. -/
def findNL : List Nat → Option Nat
  | [] => none
  | b :: rest =>
    if b = NLBYTE then some 0 else (findNL rest).map (fun i => i + 1)

theorem findNL_lt_length {l : List Nat} {i : Nat} (h : findNL l = some i) :
    i < l.length := by
  induction l generalizing i with
  | nil => simp [findNL] at h
  | cons b rest ih =>
    rw [List.length_cons]
    unfold findNL at h
    by_cases hb : b = NLBYTE
    · rw [if_pos hb] at h
      rw [Option.some.injEq] at h
      omega
    · rw [if_neg hb] at h
      rw [Option.map_eq_some'] at h
      obtain ⟨j, hj, rfl⟩ := h
      have := ih hj
      omega

theorem findNL_append_left {a : List Nat} {i : Nat} (b : List Nat)
    (h : findNL a = some i) : findNL (a ++ b) = some i := by
  induction a generalizing i with
  | nil => simp [findNL] at h
  | cons x rest ih =>
    rw [List.cons_append]
    unfold findNL at h ⊢
    by_cases hx : x = NLBYTE
    · rw [if_pos hx] at h ⊢
      exact h
    · rw [if_neg hx] at h ⊢
      rw [Option.map_eq_some'] at h
      obtain ⟨j, hj, rfl⟩ := h
      rw [ih hj]
      rfl

theorem findNL_append_none {a : List Nat} (b : List Nat)
    (h : findNL a = none) :
    findNL (a ++ b) = (findNL b).map (fun i => i + a.length) := by
  induction a with
  | nil => simp
  | cons x rest ih =>
    rw [List.cons_append]
    unfold findNL at h ⊢
    by_cases hx : x = NLBYTE
    · rw [if_pos hx] at h
      exact absurd h (by simp)
    · rw [if_neg hx] at h ⊢
      rw [Option.map_eq_none'] at h
      rw [ih h, Option.map_map, List.length_cons]
      have hcomp : ((fun i => i + 1) ∘ (fun i => i + rest.length)) =
          (fun i : Nat => i + (rest.length + 1)) := by
        funext i
        simp [Function.comp]
        omega
      rw [hcomp]
      cases b <;> rfl

/-- Transport-visible events a connection emits: a serialized-and-sent
response value, or a `close` call on the transport. -/
inductive REvent where
  | sent (v : JVal)
  | closedTransport
  deriving Repr

/-- The engine configuration `jsonrpc_conn_feed` runs against: the JSON
parser (parson's `json_parse_string`, abstract — it receives the line
bytes), the user callbacks, and whether the transport has a non-null
`close`. -/
structure FeedCfg where
  parse : List Nat → Option JVal
  cbs : Callbacks
  hasClose : Bool

/-- The `close` calls (if any) the transport receives. -/
def closeEvents (cfg : FeedCfg) : List REvent :=
  if cfg.hasClose then [REvent.closedTransport] else []

/-- The "Request too large" reply (src/jsonrpc.c 556-557, 589-590). -/
def tooLargeError : JVal :=
  jsonrpc_build_error none JSONRPC_ERR_INVALID_REQUEST
    (some "Request too large")

/-- The parse-failure reply (src/jsonrpc.c 627-628). -/
def parseErrorValue : JVal :=
  jsonrpc_build_error none JSONRPC_ERR_PARSE none

/-- The `while (true)` loop of `jsonrpc_conn_feed` (src/jsonrpc.c
568-658) on the inbound buffer, accumulating transport events.  In the
pure model sends succeed, so the only path that closes the transport and
returns early is an oversized line — which is *not* consumed (the C code
returns before `rpc_buffer_consume`). -/
def feedLoop (cfg : FeedCfg) (buf : List Nat) (ev : List REvent) :
    List Nat × List REvent :=
  match h : findNL buf with
  | none => (buf, ev)
  | some idx =>
    let raw := buf.take idx
    let line := if raw.getLast? = some CRBYTE then raw.dropLast else raw
    if line.length = 0 then
      feedLoop cfg (buf.drop (idx + 1)) ev
    else if MAX_MESSAGE_BYTES < line.length then
      (buf, ev ++ [REvent.sent tooLargeError] ++ closeEvents cfg)
    else
      match cfg.parse line with
      | none =>
        feedLoop cfg (buf.drop (idx + 1)) (ev ++ [REvent.sent parseErrorValue])
      | some req =>
        match (jsonrpc_process_value cfg.cbs (some req)).1 with
        | none => feedLoop cfg (buf.drop (idx + 1)) ev
        | some resp =>
          feedLoop cfg (buf.drop (idx + 1)) (ev ++ [REvent.sent resp])
termination_by buf.length
decreasing_by
  all_goals
    simp only [List.length_drop]
    have := findNL_lt_length h
    omega

/-- Connection state visible to the framer: the `closed` flag (set only
by `jsonrpc_conn_free`), the inbound buffer contents, and the transport
events emitted so far. -/
structure ConnSt where
  closed : Bool
  buffer : List Nat
  events : List REvent
  deriving Repr

/-- `jsonrpc_conn_feed` (src/jsonrpc.c 548-659): ignore empty feeds and
closed connections; on a buffer-cap breach send "Request too large" and
close (the buffer is left unchanged, no partial append); otherwise append
and run the line loop. -/
def jsonrpc_conn_feed (cfg : FeedCfg) (st : ConnSt) (data : List Nat) :
    ConnSt :=
  if data.length = 0 ∨ st.closed then st
  else if MAX_BUFFER_BYTES < st.buffer.length + data.length then
    { st with events :=
        st.events ++ [REvent.sent tooLargeError] ++ closeEvents cfg }
  else
    let r := feedLoop cfg (st.buffer ++ data) st.events
    { st with buffer := r.1, events := r.2 }

/-- Feeding a sequence of chunks. -/
def jsonrpc_feed_all (cfg : FeedCfg) (st : ConnSt)
    (chunks : List (List Nat)) : ConnSt :=
  chunks.foldl (jsonrpc_conn_feed cfg) st

/-- A fresh connection's framer state. -/
def initialConn : ConnSt :=
  { closed := false, buffer := [], events := [] }

/-- The newline-terminated segments of a byte sequence (the lines the
framer will extract, before CR stripping). -/
def completeSegs (l : List Nat) : List (List Nat) :=
  match h : findNL l with
  | none => []
  | some i => l.take i :: completeSegs (l.drop (i + 1))
termination_by l.length
decreasing_by
  simp only [List.length_drop]
  have := findNL_lt_length h
  omega

/-- The line the framer extracts for a newline at `idx`: the bytes before
it, with one trailing CR stripped. -/
def lineOf (buf : List Nat) (idx : Nat) : List Nat :=
  if (buf.take idx).getLast? = some CRBYTE then (buf.take idx).dropLast
  else buf.take idx

theorem feedLoop_no_newline (cfg : FeedCfg) (buf : List Nat)
    (ev : List REvent) (h : findNL buf = none) :
    feedLoop cfg buf ev = (buf, ev) := by
  rw [feedLoop]
  split
  · rfl
  · rename_i idx hidx
    rw [h] at hidx
    exact absurd hidx (by simp)

theorem feedLoop_newline (cfg : FeedCfg) (buf : List Nat)
    (ev : List REvent) (idx : Nat) (h : findNL buf = some idx) :
    feedLoop cfg buf ev =
      if (lineOf buf idx).length = 0 then
        feedLoop cfg (buf.drop (idx + 1)) ev
      else if MAX_MESSAGE_BYTES < (lineOf buf idx).length then
        (buf, ev ++ [REvent.sent tooLargeError] ++ closeEvents cfg)
      else
        match cfg.parse (lineOf buf idx) with
        | none =>
          feedLoop cfg (buf.drop (idx + 1))
            (ev ++ [REvent.sent parseErrorValue])
        | some req =>
          match (jsonrpc_process_value cfg.cbs (some req)).1 with
          | none => feedLoop cfg (buf.drop (idx + 1)) ev
          | some resp =>
            feedLoop cfg (buf.drop (idx + 1)) (ev ++ [REvent.sent resp]) := by
  rw [feedLoop]
  split
  · rename_i hnone
    rw [h] at hnone
    exact absurd hnone (by simp)
  · rename_i idx2 hidx
    rw [h, Option.some.injEq] at hidx
    subst hidx
    rfl

theorem completeSegs_no_newline {l : List Nat} (h : findNL l = none) :
    completeSegs l = [] := by
  rw [completeSegs]
  split
  · rfl
  · rename_i i hi
    rw [h] at hi
    exact absurd hi (by simp)

theorem completeSegs_newline {l : List Nat} {i : Nat}
    (h : findNL l = some i) :
    completeSegs l = l.take i :: completeSegs (l.drop (i + 1)) := by
  rw [completeSegs]
  split
  · rename_i hnone
    rw [h] at hnone
    exact absurd hnone (by simp)
  · rename_i i2 hi
    rw [h, Option.some.injEq] at hi
    subst hi
    rfl

theorem feedLoop_buffer_le (cfg : FeedCfg) :
    ∀ (n : Nat) (buf : List Nat) (ev : List REvent), buf.length ≤ n →
      ((feedLoop cfg buf ev).1).length ≤ buf.length := by
  intro n
  induction n with
  | zero =>
    intro buf ev hlen
    have : buf = [] := List.length_eq_zero.mp (Nat.le_zero.mp hlen)
    subst this
    rw [feedLoop_no_newline cfg [] ev rfl]
  | succ n ih =>
    intro buf ev hlen
    cases hnl : findNL buf with
    | none => rw [feedLoop_no_newline cfg buf ev hnl]
    | some idx =>
      have hidx := findNL_lt_length hnl
      have hdrop : (buf.drop (idx + 1)).length ≤ n := by
        rw [List.length_drop]
        omega
      have hle : (buf.drop (idx + 1)).length ≤ buf.length := by
        rw [List.length_drop]
        omega
      rw [feedLoop_newline cfg buf ev idx hnl]
      by_cases h0 : (lineOf buf idx).length = 0
      · rw [if_pos h0]
        exact Nat.le_trans (ih _ ev hdrop) hle
      · rw [if_neg h0]
        by_cases hbig : MAX_MESSAGE_BYTES < (lineOf buf idx).length
        · rw [if_pos hbig]
        · rw [if_neg hbig]
          cases hp : cfg.parse (lineOf buf idx) with
          | none =>
            simp only [hp]
            exact Nat.le_trans (ih _ _ hdrop) hle
          | some req =>
            simp only [hp]
            cases hr : (jsonrpc_process_value cfg.cbs (some req)).1 with
            | none =>
              simp only [hr]
              exact Nat.le_trans (ih _ _ hdrop) hle
            | some resp =>
              simp only [hr]
              exact Nat.le_trans (ih _ _ hdrop) hle

theorem feedLoop_segs_mem (cfg : FeedCfg) :
    ∀ (n : Nat) (buf : List Nat) (ev : List REvent) (rest : List Nat),
      buf.length ≤ n →
      ∀ s ∈ completeSegs ((feedLoop cfg buf ev).1 ++ rest),
        s ∈ completeSegs (buf ++ rest) := by
  intro n
  induction n with
  | zero =>
    intro buf ev rest hlen s hs
    have : buf = [] := List.length_eq_zero.mp (Nat.le_zero.mp hlen)
    subst this
    rw [feedLoop_no_newline cfg [] ev rfl] at hs
    exact hs
  | succ n ih =>
    intro buf ev rest hlen s hs
    cases hnl : findNL buf with
    | none =>
      rw [feedLoop_no_newline cfg buf ev hnl] at hs
      exact hs
    | some idx =>
      have hidx := findNL_lt_length hnl
      have hdrop : (buf.drop (idx + 1)).length ≤ n := by
        rw [List.length_drop]
        omega
      have hsegs : completeSegs (buf ++ rest) =
          (buf ++ rest).take idx ::
            completeSegs (buf.drop (idx + 1) ++ rest) := by
        rw [completeSegs_newline (findNL_append_left rest hnl),
          List.drop_append_of_le_length (by omega)]
      rw [feedLoop_newline cfg buf ev idx hnl] at hs
      by_cases h0 : (lineOf buf idx).length = 0
      · rw [if_pos h0] at hs
        rw [hsegs]
        exact List.mem_cons_of_mem _ (ih _ ev rest hdrop s hs)
      · rw [if_neg h0] at hs
        by_cases hbig : MAX_MESSAGE_BYTES < (lineOf buf idx).length
        · rw [if_pos hbig] at hs
          exact hs
        · rw [if_neg hbig] at hs
          rw [hsegs]
          cases hp : cfg.parse (lineOf buf idx) with
          | none =>
            simp only [hp] at hs
            exact List.mem_cons_of_mem _ (ih _ _ rest hdrop s hs)
          | some req =>
            simp only [hp] at hs
            cases hr : (jsonrpc_process_value cfg.cbs (some req)).1 with
            | none =>
              simp only [hr] at hs
              exact List.mem_cons_of_mem _ (ih _ _ rest hdrop s hs)
            | some resp =>
              simp only [hr] at hs
              exact List.mem_cons_of_mem _ (ih _ _ rest hdrop s hs)

theorem lineOf_append {a : List Nat} (b : List Nat) {idx : Nat}
    (h : idx ≤ a.length) : lineOf (a ++ b) idx = lineOf a idx := by
  unfold lineOf
  rw [List.take_append_of_le_length h]

theorem lineOf_length_le (buf : List Nat) (idx : Nat) :
    (lineOf buf idx).length ≤ (buf.take idx).length := by
  unfold lineOf
  by_cases h : (buf.take idx).getLast? = some CRBYTE
  · rw [if_pos h, List.length_dropLast]
    omega
  · rw [if_neg h]

theorem feedLoop_append (cfg : FeedCfg) :
    ∀ (n : Nat) (a : List Nat), a.length ≤ n →
      ∀ (b : List Nat) (ev : List REvent),
      (∀ s ∈ completeSegs (a ++ b), s.length ≤ MAX_MESSAGE_BYTES) →
      feedLoop cfg ((feedLoop cfg a ev).1 ++ b) (feedLoop cfg a ev).2 =
        feedLoop cfg (a ++ b) ev := by
  intro n
  induction n with
  | zero =>
    intro a hlen b ev hseg
    have : a = [] := List.length_eq_zero.mp (Nat.le_zero.mp hlen)
    subst this
    rw [feedLoop_no_newline cfg [] ev rfl]
  | succ n ih =>
    intro a hlen b ev hseg
    cases hnl : findNL a with
    | none =>
      rw [feedLoop_no_newline cfg a ev hnl]
    | some idx =>
      have hidx := findNL_lt_length hnl
      have hnl2 : findNL (a ++ b) = some idx := findNL_append_left b hnl
      have hdrop2 : (a ++ b).drop (idx + 1) = a.drop (idx + 1) ++ b :=
        List.drop_append_of_le_length (by omega)
      have hline : lineOf (a ++ b) idx = lineOf a idx :=
        lineOf_append b (by omega)
      have hdroplen : (a.drop (idx + 1)).length ≤ n := by
        rw [List.length_drop]
        omega
      have hsegtail : ∀ s ∈ completeSegs (a.drop (idx + 1) ++ b),
          s.length ≤ MAX_MESSAGE_BYTES := by
        intro s hs
        apply hseg
        rw [completeSegs_newline hnl2, hdrop2]
        exact List.mem_cons_of_mem _ hs
      have hnotbig : ¬ MAX_MESSAGE_BYTES < (lineOf a idx).length := by
        have hhead : (a ++ b).take idx ∈ completeSegs (a ++ b) := by
          rw [completeSegs_newline hnl2]
          exact List.mem_cons_self _ _
        have h1 := hseg _ hhead
        have h2 := lineOf_length_le (a ++ b) idx
        rw [hline] at h2
        omega
      rw [feedLoop_newline cfg a ev idx hnl,
        feedLoop_newline cfg (a ++ b) ev idx hnl2, hline, hdrop2]
      by_cases h0 : (lineOf a idx).length = 0
      · rw [if_pos h0, if_pos h0]
        exact ih _ hdroplen b ev hsegtail
      · rw [if_neg h0, if_neg h0, if_neg hnotbig, if_neg hnotbig]
        cases hp : cfg.parse (lineOf a idx) with
        | none =>
          simp only [hp]
          exact ih _ hdroplen b _ hsegtail
        | some req =>
          simp only [hp]
          cases hr : (jsonrpc_process_value cfg.cbs (some req)).1 with
          | none =>
            simp only [hr]
            exact ih _ hdroplen b _ hsegtail
          | some resp =>
            simp only [hr]
            exact ih _ hdroplen b _ hsegtail

theorem conn_feed_closed (cfg : FeedCfg) (st : ConnSt) (data : List Nat) :
    (jsonrpc_conn_feed cfg st data).closed = st.closed := by
  unfold jsonrpc_conn_feed
  by_cases h1 : data.length = 0 ∨ st.closed
  · rw [if_pos h1]
  · rw [if_neg h1]
    by_cases h2 : MAX_BUFFER_BYTES < st.buffer.length + data.length
    · rw [if_pos h2]
    · rw [if_neg h2]

theorem conn_feed_append (cfg : FeedCfg) (st : ConnSt) (a b : List Nat)
    (hclosed : st.closed = false)
    (hlen : st.buffer.length + a.length + b.length ≤ MAX_BUFFER_BYTES)
    (hseg : ∀ s ∈ completeSegs (st.buffer ++ a ++ b),
      s.length ≤ MAX_MESSAGE_BYTES) :
    jsonrpc_conn_feed cfg (jsonrpc_conn_feed cfg st a) b =
      jsonrpc_conn_feed cfg st (a ++ b) := by
  by_cases ha : a.length = 0
  · have : a = [] := List.length_eq_zero.mp ha
    subst this
    rw [show jsonrpc_conn_feed cfg st [] = st by
      unfold jsonrpc_conn_feed; rw [if_pos (by simp)]]
    rw [List.nil_append]
  by_cases hb : b.length = 0
  · have : b = [] := List.length_eq_zero.mp hb
    subst this
    rw [show jsonrpc_conn_feed cfg (jsonrpc_conn_feed cfg st a) [] =
        jsonrpc_conn_feed cfg st a by
      unfold jsonrpc_conn_feed
      rw [if_pos (by simp)]]
    rw [List.append_nil]
  have hab : (a ++ b).length ≠ 0 := by
    rw [List.length_append]
    omega
  have hcap1 : ¬ MAX_BUFFER_BYTES < st.buffer.length + a.length := by
    omega
  have hcapall : ¬ MAX_BUFFER_BYTES < st.buffer.length + (a ++ b).length := by
    rw [List.length_append]
    omega
  have hres := feedLoop_buffer_le cfg (st.buffer ++ a).length
    (st.buffer ++ a) st.events (Nat.le_refl _)
  have hcap2 : ¬ MAX_BUFFER_BYTES <
      ((feedLoop cfg (st.buffer ++ a) st.events).1).length + b.length := by
    rw [List.length_append] at hres
    omega
  have hstep1 : jsonrpc_conn_feed cfg st a =
      { st with buffer := (feedLoop cfg (st.buffer ++ a) st.events).1,
                events := (feedLoop cfg (st.buffer ++ a) st.events).2 } := by
    unfold jsonrpc_conn_feed
    rw [if_neg (by simp [ha, hclosed]), if_neg hcap1]
  have hsegA : ∀ s ∈ completeSegs ((st.buffer ++ a) ++ b),
      s.length ≤ MAX_MESSAGE_BYTES := by
    intro s hs
    apply hseg
    rw [List.append_assoc] at hs ⊢
    exact hs
  rw [hstep1]
  unfold jsonrpc_conn_feed
  rw [if_neg (by simp [hb, hclosed]), if_neg hcap2,
    if_neg (by simp [hclosed]; intro h hb2; exact ha (by simp [h])), if_neg hcapall]
  have hL := feedLoop_append cfg (st.buffer ++ a).length (st.buffer ++ a)
    (Nat.le_refl _) b st.events hsegA
  simp only [hL, List.append_assoc]

theorem conn_feed_buffer_le (cfg : FeedCfg) (st : ConnSt)
    (data : List Nat) :
    (jsonrpc_conn_feed cfg st data).buffer.length ≤
      st.buffer.length + data.length := by
  unfold jsonrpc_conn_feed
  by_cases h1 : data.length = 0 ∨ st.closed
  · rw [if_pos h1]
    omega
  · rw [if_neg h1]
    by_cases h2 : MAX_BUFFER_BYTES < st.buffer.length + data.length
    · rw [if_pos h2]
      simp
    · rw [if_neg h2]
      have := feedLoop_buffer_le cfg (st.buffer ++ data).length
        (st.buffer ++ data) st.events (Nat.le_refl _)
      rw [List.length_append] at this
      exact this

theorem conn_feed_segs_mem (cfg : FeedCfg) (st : ConnSt)
    (data rest : List Nat) (hclosed : st.closed = false)
    (hcap : ¬ MAX_BUFFER_BYTES < st.buffer.length + data.length) :
    ∀ s ∈ completeSegs ((jsonrpc_conn_feed cfg st data).buffer ++ rest),
      s ∈ completeSegs (st.buffer ++ data ++ rest) := by
  intro s hs
  by_cases hd : data.length = 0
  · have : data = [] := List.length_eq_zero.mp hd
    subst this
    rw [show jsonrpc_conn_feed cfg st [] = st by
      unfold jsonrpc_conn_feed; rw [if_pos (by simp)]] at hs
    rw [List.append_nil]
    exact hs
  · rw [show jsonrpc_conn_feed cfg st data =
        { st with buffer := (feedLoop cfg (st.buffer ++ data) st.events).1,
                  events := (feedLoop cfg (st.buffer ++ data) st.events).2 }
        by
      unfold jsonrpc_conn_feed
      rw [if_neg (by simp [hd, hclosed]), if_neg hcap]] at hs
    exact feedLoop_segs_mem cfg (st.buffer ++ data).length
      (st.buffer ++ data) st.events rest (Nat.le_refl _) s hs

theorem feed_all_eq (cfg : FeedCfg) :
    ∀ (chunks : List (List Nat)) (st : ConnSt),
      st.closed = false →
      st.buffer.length + chunks.flatten.length ≤ MAX_BUFFER_BYTES →
      (∀ s ∈ completeSegs (st.buffer ++ chunks.flatten),
        s.length ≤ MAX_MESSAGE_BYTES) →
      jsonrpc_feed_all cfg st chunks =
        jsonrpc_conn_feed cfg st chunks.flatten := by
  intro chunks
  induction chunks with
  | nil =>
    intro st hclosed hlen hseg
    show st = jsonrpc_conn_feed cfg st []
    unfold jsonrpc_conn_feed
    rw [if_pos (by simp)]
  | cons c cs ih =>
    intro st hclosed hlen hseg
    rw [show (c :: cs).flatten = c ++ cs.flatten from rfl] at hlen hseg ⊢
    rw [List.length_append] at hlen
    show jsonrpc_feed_all cfg (jsonrpc_conn_feed cfg st c) cs = _
    rw [← conn_feed_append cfg st c cs.flatten hclosed (by omega)
      (by intro s hs; apply hseg; rw [List.append_assoc] at hs; exact hs)]
    apply ih
    · rw [conn_feed_closed]
      exact hclosed
    · have := conn_feed_buffer_le cfg st c
      omega
    · intro s hs
      apply hseg
      have hmem := conn_feed_segs_mem cfg st c cs.flatten hclosed
        (by omega) s hs
      rw [List.append_assoc] at hmem
      exact hmem

/-- C3 (amended): as long as the concatenated input fits the 2 MiB buffer
cap and every newline-delimited line fits the 1 MiB message cap, the
engine state reached from a fresh connection — its emitted response
stream included — is a function of the concatenated input only,
independent of how it is split into `conn_feed` chunks.  (Without these
bounds chunking is observable; see the counterexample.) -/
theorem c3_chunking_independence_amended (cfg : FeedCfg)
    (chunks : List (List Nat))
    (hlen : chunks.flatten.length ≤ MAX_BUFFER_BYTES)
    (hseg : ∀ s ∈ completeSegs chunks.flatten,
      s.length ≤ MAX_MESSAGE_BYTES) :
    jsonrpc_feed_all cfg initialConn chunks =
      jsonrpc_conn_feed cfg initialConn chunks.flatten := by
  apply feed_all_eq cfg chunks initialConn rfl
  · simpa [initialConn] using hlen
  · intro s hs
    apply hseg
    simpa [initialConn] using hs

theorem findNL_replicate (n : Nat) {a : Nat} (h : a ≠ NLBYTE) :
    findNL (List.replicate n a) = none := by
  induction n with
  | zero => rfl
  | succ n ih =>
    rw [List.replicate_succ]
    unfold findNL
    rw [if_neg h, ih]
    rfl

theorem getLast?_replicate_succ (n a : Nat) :
    (List.replicate (n + 1) a).getLast? = some a := by
  rw [List.replicate_succ']
  exact List.getLast?_concat _

/-- A line of `MAX_MESSAGE_BYTES + 1` identical bytes `'a'`. -/
def bigLine : List Nat := List.replicate (MAX_MESSAGE_BYTES + 1) 97

theorem feedLoop_too_large (cfg : FeedCfg) (line t : List Nat)
    (ev : List REvent) (hnl : findNL line = none)
    (hcr : line.getLast? ≠ some CRBYTE)
    (hbig : MAX_MESSAGE_BYTES < line.length) :
    feedLoop cfg (line ++ (NLBYTE :: t)) ev =
      (line ++ (NLBYTE :: t),
       ev ++ [REvent.sent tooLargeError] ++ closeEvents cfg) := by
  have hidx : findNL (line ++ (NLBYTE :: t)) = some line.length := by
    rw [findNL_append_none _ hnl]
    simp [findNL, NLBYTE]
  have hline : lineOf (line ++ (NLBYTE :: t)) line.length = line := by
    unfold lineOf
    rw [show line ++ (NLBYTE :: t) = line ++ [NLBYTE] ++ t by simp,
      List.append_assoc, List.take_append_of_le_length (Nat.le_refl _),
      List.take_length]
    rw [if_neg hcr]
  have hmax : MAX_MESSAGE_BYTES = 1048576 := rfl
  rw [feedLoop_newline cfg _ ev line.length hidx, hline,
    if_neg (by omega), if_pos hbig]

theorem append_cons_ne_nil (a : List Nat) (x : Nat) (t : List Nat) :
    a ++ (x :: t) ≠ [] := by
  intro h
  have hlen := congrArg List.length h
  rw [List.length_append, List.length_cons, List.length_nil] at hlen
  omega

theorem conn_feed_too_large (cfg : FeedCfg) (st : ConnSt)
    (data line t : List Nat)
    (hclosed : st.closed = false)
    (hdata : data ≠ [])
    (hsplit : st.buffer ++ data = line ++ (NLBYTE :: t))
    (hnl : findNL line = none)
    (hcr : line.getLast? ≠ some CRBYTE)
    (hbig : MAX_MESSAGE_BYTES < line.length)
    (hcap : st.buffer.length + data.length ≤ MAX_BUFFER_BYTES) :
    jsonrpc_conn_feed cfg st data =
      { closed := st.closed, buffer := line ++ (NLBYTE :: t),
        events := st.events ++ [REvent.sent tooLargeError] ++
          closeEvents cfg } := by
  unfold jsonrpc_conn_feed
  rw [if_neg (by
      rw [hclosed]
      simp only [Bool.false_eq_true, or_false]
      rw [List.length_eq_zero]
      exact hdata),
    if_neg (by omega)]
  rw [hsplit, feedLoop_too_large cfg line t st.events hnl hcr hbig]

/-- A configuration with no handlers, a parser that rejects everything,
and a transport with a `close`; used by the chunking counterexample and
witnesses (the inputs involved never reach the parser). -/
def cfgPlain : FeedCfg :=
  { parse := fun _ => none,
    cbs := { onRequest := none, hasOnNotification := false },
    hasClose := true }

theorem bigLine_length : bigLine.length = MAX_MESSAGE_BYTES + 1 :=
  List.length_replicate ..

theorem bigLine_no_newline : findNL bigLine = none :=
  findNL_replicate _ (by decide)

theorem bigLine_no_cr : bigLine.getLast? ≠ some CRBYTE := by
  rw [show bigLine = List.replicate (MAX_MESSAGE_BYTES + 1) 97 from rfl,
    getLast?_replicate_succ]
  decide

/-- The connection state after the oversized line and its newline have
been fed and rejected once: the buffer was never consumed. -/
def stOversized : ConnSt :=
  { closed := false, buffer := bigLine ++ (NLBYTE :: []),
    events := [REvent.sent tooLargeError, REvent.closedTransport] }

theorem bigLine_gt_max : MAX_MESSAGE_BYTES < bigLine.length := by
  rw [bigLine_length]
  omega

theorem oversize_cap_single : initialConn.buffer.length +
    (bigLine ++ (NLBYTE :: [120])).length ≤ MAX_BUFFER_BYTES := by
  rw [show initialConn.buffer.length = 0 from rfl, List.length_append,
    bigLine_length, List.length_cons, List.length_cons, List.length_nil,
    show MAX_MESSAGE_BYTES = 1048576 from rfl,
    show MAX_BUFFER_BYTES = 2097152 from rfl]
  omega

theorem oversize_feed_single : jsonrpc_conn_feed cfgPlain initialConn
    (bigLine ++ (NLBYTE :: [120])) =
    { closed := false, buffer := bigLine ++ (NLBYTE :: [120]),
      events := [REvent.sent tooLargeError,
        REvent.closedTransport] } := by
  rw [conn_feed_too_large cfgPlain initialConn
    (bigLine ++ (NLBYTE :: [120])) bigLine [120] rfl
    (append_cons_ne_nil _ _ _) rfl bigLine_no_newline bigLine_no_cr
    bigLine_gt_max oversize_cap_single]
  rfl

theorem oversize_cap_first : initialConn.buffer.length +
    (bigLine ++ (NLBYTE :: [])).length ≤ MAX_BUFFER_BYTES := by
  rw [show initialConn.buffer.length = 0 from rfl, List.length_append,
    bigLine_length, List.length_cons, List.length_nil,
    show MAX_MESSAGE_BYTES = 1048576 from rfl,
    show MAX_BUFFER_BYTES = 2097152 from rfl]
  omega

theorem oversize_feed_first : jsonrpc_conn_feed cfgPlain initialConn
    (bigLine ++ (NLBYTE :: [])) = stOversized := by
  rw [conn_feed_too_large cfgPlain initialConn (bigLine ++ (NLBYTE :: []))
    bigLine [] rfl (append_cons_ne_nil _ _ _) rfl bigLine_no_newline
    bigLine_no_cr bigLine_gt_max oversize_cap_first]
  rfl

theorem oversize_split_second : stOversized.buffer ++ [120] =
    bigLine ++ (NLBYTE :: [120]) := by
  rw [show stOversized.buffer = bigLine ++ (NLBYTE :: []) from rfl,
    List.append_assoc]
  rfl

theorem oversize_cap_second : stOversized.buffer.length +
    ([120] : List Nat).length ≤ MAX_BUFFER_BYTES := by
  rw [show stOversized.buffer = bigLine ++ (NLBYTE :: []) from rfl,
    List.length_append, bigLine_length, List.length_cons,
    List.length_cons, List.length_nil,
    show MAX_MESSAGE_BYTES = 1048576 from rfl,
    show MAX_BUFFER_BYTES = 2097152 from rfl]
  omega

theorem oversize_feed_second : jsonrpc_conn_feed cfgPlain stOversized
    [120] =
    { closed := false, buffer := bigLine ++ (NLBYTE :: [120]),
      events := [REvent.sent tooLargeError, REvent.closedTransport,
        REvent.sent tooLargeError, REvent.closedTransport] } := by
  rw [conn_feed_too_large cfgPlain stOversized [120] bigLine [120] rfl
    (by simp) oversize_split_second bigLine_no_newline bigLine_no_cr
    bigLine_gt_max oversize_cap_second]
  rfl

/-- C3 counterexample: the same byte sequence — an oversized line, its
newline, then one more byte — produces different response streams under
two chunkings.  Fed as one chunk, the engine emits one "Request too
large" error and closes; fed with the trailing byte in a second chunk,
the unconsumed oversized line triggers the error a second time (the C
code returns from the oversize path without calling
`rpc_buffer_consume`, and `conn->closed` is never set by `conn_feed`). -/
theorem c3_counterexample :
    (([bigLine ++ [NLBYTE, 120]] : List (List Nat)).flatten =
      ([bigLine ++ [NLBYTE], [120]] : List (List Nat)).flatten) ∧
    (jsonrpc_feed_all cfgPlain initialConn
        [bigLine ++ [NLBYTE, 120]]).events ≠
      (jsonrpc_feed_all cfgPlain initialConn
        [bigLine ++ [NLBYTE], [120]]).events := by
  refine ⟨by simp, ?_⟩
  have e1 : jsonrpc_feed_all cfgPlain initialConn
      [bigLine ++ [NLBYTE, 120]] =
      jsonrpc_conn_feed cfgPlain initialConn
        (bigLine ++ (NLBYTE :: [120])) := by
    rw [jsonrpc_feed_all, List.foldl_cons, List.foldl_nil]
  have e2 : jsonrpc_feed_all cfgPlain initialConn
      [bigLine ++ [NLBYTE], [120]] =
      jsonrpc_conn_feed cfgPlain
        (jsonrpc_conn_feed cfgPlain initialConn (bigLine ++ (NLBYTE :: [])))
        [120] := by
    rw [jsonrpc_feed_all, List.foldl_cons, List.foldl_cons, List.foldl_nil]
  rw [e1, oversize_feed_single, e2, oversize_feed_first,
    oversize_feed_second]
  intro h
  have hlen2 := congrArg List.length h
  simp at hlen2

theorem completeSegs_small :
    completeSegs [97, NLBYTE, 98, NLBYTE] = [[97], [98]] := by
  rw [@completeSegs_newline [97, NLBYTE, 98, NLBYTE] 1 (by decide)]
  show [97] :: completeSegs [98, NLBYTE] = [[97], [98]]
  rw [@completeSegs_newline [98, NLBYTE] 1 (by decide)]
  show [97] :: [98] :: completeSegs ([] : List Nat) = [[97], [98]]
  rw [@completeSegs_no_newline ([] : List Nat) rfl]

theorem c3_witness :
    jsonrpc_feed_all cfgPlain initialConn [[97, NLBYTE], [98, NLBYTE]] =
      jsonrpc_conn_feed cfgPlain initialConn [97, NLBYTE, 98, NLBYTE] :=
  c3_chunking_independence_amended cfgPlain [[97, NLBYTE], [98, NLBYTE]]
    (by decide)
    (by
      intro s hs
      rw [show ([[97, NLBYTE], [98, NLBYTE]] : List (List Nat)).flatten =
        [97, NLBYTE, 98, NLBYTE] from rfl, completeSegs_small] at hs
      simp only [List.mem_cons, List.not_mem_nil, or_false] at hs
      rcases hs with rfl | rfl <;> decide)

/-- What the engine emits for one well-sized line: parse it
(Parse error −32700 on failure), dispatch the parsed value, send the
response if one is produced. -/
def processLineEvents (cfg : FeedCfg) (line : List Nat) : List REvent :=
  match cfg.parse line with
  | none => [REvent.sent parseErrorValue]
  | some req =>
    match (jsonrpc_process_value cfg.cbs (some req)).1 with
    | none => []
    | some resp => [REvent.sent resp]

theorem lineOf_terminated (line t : List Nat)
    (hcr : line.getLast? ≠ some CRBYTE) :
    lineOf (line ++ (NLBYTE :: t)) line.length = line := by
  unfold lineOf
  rw [show line ++ (NLBYTE :: t) = line ++ [NLBYTE] ++ t by simp,
    List.append_assoc, List.take_append_of_le_length (Nat.le_refl _),
    List.take_length]
  rw [if_neg hcr]

theorem feedLoop_line_dispatch (cfg : FeedCfg) (line : List Nat)
    (ev : List REvent) (hnl : findNL line = none)
    (hcr : line.getLast? ≠ some CRBYTE)
    (h0 : line.length ≠ 0)
    (hle : ¬ MAX_MESSAGE_BYTES < line.length) :
    feedLoop cfg (line ++ [NLBYTE]) ev =
      ([], ev ++ processLineEvents cfg line) := by
  have hidx : findNL (line ++ [NLBYTE]) = some line.length := by
    rw [findNL_append_none _ hnl]
    simp [findNL, NLBYTE]
  have hdrop : (line ++ [NLBYTE]).drop (line.length + 1) = [] := by
    rw [show line.length + 1 = (line ++ [NLBYTE]).length by
      rw [List.length_append]; rfl, List.drop_length]
  rw [feedLoop_newline cfg _ ev line.length hidx,
    lineOf_terminated line [] hcr, if_neg h0, if_neg hle]
  unfold processLineEvents
  cases hp : cfg.parse line with
  | none =>
    simp only [hp]
    rw [hdrop, feedLoop_no_newline cfg [] _ rfl]
  | some req =>
    simp only [hp]
    cases hr : (jsonrpc_process_value cfg.cbs (some req)).1 with
    | none =>
      simp only [hr]
      rw [hdrop, feedLoop_no_newline cfg [] _ rfl, List.append_nil]
    | some resp =>
      simp only [hr]
      rw [hdrop, feedLoop_no_newline cfg [] _ rfl]

/-- C4: a line of exactly `MAX_MESSAGE_BYTES` bytes (no embedded newline,
no trailing CR) followed by `'\n'` is processed normally — parsed and
dispatched with no error and no close; a line one byte longer makes the
engine send an Invalid Request error with message "Request too large",
close the transport, and stop: nothing after it is processed in this
feed, and the buffer is left unconsumed. -/
theorem c4_message_size_boundary (cfg : FeedCfg)
    (hclose : cfg.hasClose = true) :
    (∀ line : List Nat, line.length = MAX_MESSAGE_BYTES →
      findNL line = none → line.getLast? ≠ some CRBYTE →
      jsonrpc_conn_feed cfg initialConn (line ++ [NLBYTE]) =
        { closed := false, buffer := [],
          events := processLineEvents cfg line }) ∧
    (∀ line rest : List Nat, line.length = MAX_MESSAGE_BYTES + 1 →
      findNL line = none → line.getLast? ≠ some CRBYTE →
      line.length + 1 + rest.length ≤ MAX_BUFFER_BYTES →
      jsonrpc_conn_feed cfg initialConn (line ++ (NLBYTE :: rest)) =
        { closed := false, buffer := line ++ (NLBYTE :: rest),
          events := [REvent.sent tooLargeError,
            REvent.closedTransport] }) := by
  have hmax : MAX_MESSAGE_BYTES = 1048576 := rfl
  have hbuf : MAX_BUFFER_BYTES = 2097152 := rfl
  have hclev : closeEvents cfg = [REvent.closedTransport] := by
    rw [closeEvents, if_pos hclose]
  constructor
  · intro line hlen hnl hcr
    unfold jsonrpc_conn_feed
    rw [if_neg (by
        simp only [Bool.false_eq_true, or_false,
          show initialConn.closed = false from rfl]
        rw [List.length_eq_zero]
        exact append_cons_ne_nil line NLBYTE []),
      if_neg (by
        rw [show initialConn.buffer.length = 0 from rfl,
          List.length_append, hlen,
          show ([NLBYTE] : List Nat).length = 1 from rfl]
        omega)]
    rw [show initialConn.buffer ++ (line ++ [NLBYTE]) = line ++ [NLBYTE]
      from rfl]
    rw [feedLoop_line_dispatch cfg line initialConn.events hnl hcr
      (by omega) (by omega)]
    rfl
  · intro line rest hlen hnl hcr hcap
    rw [conn_feed_too_large cfg initialConn (line ++ (NLBYTE :: rest))
      line rest rfl (append_cons_ne_nil line NLBYTE rest) rfl hnl hcr
      (by omega)
      (by
        rw [show initialConn.buffer.length = 0 from rfl,
          List.length_append, List.length_cons]
        omega)]
    rw [hclev]
    rfl

/-- A line of exactly `MAX_MESSAGE_BYTES` bytes `'a'`. -/
def lineMax : List Nat := List.replicate MAX_MESSAGE_BYTES 97

theorem lineMax_length : lineMax.length = MAX_MESSAGE_BYTES :=
  List.length_replicate ..

theorem lineMax_no_newline : findNL lineMax = none :=
  findNL_replicate _ (by decide)

theorem lineMax_no_cr : lineMax.getLast? ≠ some CRBYTE := by
  rw [show lineMax = List.replicate (1048575 + 1) 97 from rfl,
    getLast?_replicate_succ]
  decide

theorem c4_witness :
    (jsonrpc_conn_feed cfgPlain initialConn (lineMax ++ [NLBYTE]) =
      { closed := false, buffer := [],
        events := processLineEvents cfgPlain lineMax }) ∧
    (jsonrpc_conn_feed cfgPlain initialConn (bigLine ++ (NLBYTE :: [])) =
      { closed := false, buffer := bigLine ++ (NLBYTE :: []),
        events := [REvent.sent tooLargeError,
          REvent.closedTransport] }) :=
  ⟨(c4_message_size_boundary cfgPlain rfl).1 lineMax lineMax_length
      lineMax_no_newline lineMax_no_cr,
   (c4_message_size_boundary cfgPlain rfl).2 bigLine [] bigLine_length
      bigLine_no_newline bigLine_no_cr
      (by rw [bigLine_length]; decide)⟩
